import Mathlib

/-!
Verification development for the api-toolkit repository (a command-line HTTP
client).  The Python sources under src/api_toolkit are shallowly embedded:

  - models/request_models.py   : HttpRequest, HttpResponse and the method
                                 validation performed in HttpRequest.__post_init__;
  - display/formatters.py      : ResponseFormatter.format_response,
                                 ResponseFormatter._format_body,
                                 ResponseFormatter._get_status_color,
                                 ResponseFormatter._get_status_text;
  - commands/request.py        : _parse_headers.

Console output is modelled structurally: every console.print call of the
formatter becomes one RenderItem (or one field of the summary block), so the
numbers interpolated into f-strings stay visible as data.  Python strings are
modelled as Lean strings (sequences of Unicode scalar values; Python length =
number of code points = Lean String.length).  Python dicts with string keys are
modelled as insertion-ordered association lists with unique keys.
-/

/-! ### Python string primitives -/

/-- Model of Python membership of a pattern in a string restricted to lists of
characters: charListStartsWith l p is true when p is a prefix of l. -/
def charListStartsWith : List Char → List Char → Bool
  | _, [] => true
  | [], _ :: _ => false
  | c :: cs, p :: ps => c == p && charListStartsWith cs ps

/-- segIn p l is true when the character list p occurs contiguously inside l. -/
def segIn (p : List Char) : List Char → Bool
  | [] => p.isEmpty
  | c :: cs => charListStartsWith (c :: cs) p || segIn p cs

/-- Model of the Python substring test pat in hay (operator in on str). -/
def strContainsSub (hay pat : String) : Bool :=
  segIn pat.toList hay.toList

/-- Model of Python str.lower restricted to ASCII (the repository only ever
lowercases ASCII header names, where Python and ASCII lowercasing agree). -/
def pyLower (s : String) : String :=
  String.mk (s.toList.map Char.toLower)

/-- Model of Python str.upper restricted to ASCII (the repository only ever
uppercases HTTP method strings, where Python and ASCII uppercasing agree). -/
def pyUpper (s : String) : String :=
  String.mk (s.toList.map Char.toUpper)

/-- Splitting a character list at every occurrence of a separator character;
an empty input gives one empty part, as Python str.split with an explicit
separator does. -/
def splitOnChar (sep : Char) : List Char → List (List Char)
  | [] => [[]]
  | c :: rest =>
    let r := splitOnChar sep rest
    if c == sep then [] :: r
    else
      match r with
      | h :: t => (c :: h) :: t
      | [] => [[c]]

/-- Model of Python s.split(sep) for a one-character separator (the source
only splits on a newline). -/
def pySplit (s : String) (sep : Char) : List String :=
  (splitOnChar sep s.toList).map String.mk

/-- Model of Python sep.join(parts). -/
def joinWith (sep : String) : List String → String
  | [] => ""
  | [x] => x
  | x :: y :: t => x ++ sep ++ joinWith sep (y :: t)

/-- Model of the Python slice s[:n]: the first n code points. -/
def pyTake (s : String) (n : Nat) : String :=
  String.mk (s.toList.take n)

/-- Whitespace stripped by Python str.strip: the ASCII whitespace characters.
Python also strips some rarer Unicode space characters; none of the claims
involve them. -/
def isPyWs (c : Char) : Bool :=
  c == ' ' || c == '\t' || c == '\n' || c == '\r' || c == '\x0b' || c == '\x0c'

/-- Model of Python str.strip with no arguments. -/
def pyStrip (s : String) : String :=
  String.mk (((s.toList.dropWhile isPyWs).reverse.dropWhile isPyWs).reverse)

/-- Number of bytes of the UTF-8 encoding of one Unicode scalar value, as
computed by Python when encoding a str as UTF-8. -/
def charUtf8Size (c : Char) : Nat :=
  if c.toNat < 0x80 then 1
  else if c.toNat < 0x800 then 2
  else if c.toNat < 0x10000 then 3
  else 4

/-- Byte length of the UTF-8 encoding of a string: Python len of s.encode(). -/
def utf8Length (s : String) : Nat :=
  s.toList.foldl (fun a c => a + charUtf8Size c) 0

/-- True when every character of the string is ASCII. -/
def allAscii (s : String) : Bool :=
  s.toList.all (fun c => c.toNat < 0x80)

/-! ### Python dict primitives (insertion-ordered association lists) -/

/-- Model of Python d.get(k, default=None) on a dict with unique keys: the
value at the first entry whose key equals k. -/
def dictGet (d : List (String × String)) (k : String) : Option String :=
  (d.find? (fun kv => kv.1 == k)).map (fun kv => kv.2)

/-- Model of Python dict assignment d[k] = v: if the key is present its value
is replaced in place (insertion position preserved), otherwise the pair is
appended at the end. -/
def dictInsertG {α : Type} (d : List (String × α)) (k : String) (v : α) :
    List (String × α) :=
  if d.any (fun kv => kv.1 == k) then
    d.map (fun kv => if kv.1 == k then (k, v) else kv)
  else
    d ++ [(k, v)]

/-- Value stored under key k in an association list (first match). -/
def lookupVal {α : Type} (d : List (String × α)) (k : String) : Option α :=
  (d.find? (fun kv => kv.1 == k)).map (fun kv => kv.2)

/-! ### Data model: models/request_models.py -/

/-- Embedding of the HttpRequest dataclass (method, url, headers, body,
timeout).  The validation of __post_init__ is the separate constructor
mkHttpRequest below. -/
structure HttpRequest where
  method : String
  url : String
  headers : List (String × String) := []
  body : Option String := none
  timeout : Int := 30
deriving Repr, DecidableEq

/-- The valid_methods list of HttpRequest.__post_init__. -/
def valid_methods : List String :=
  ["GET", "POST", "PUT", "DELETE", "PATCH", "HEAD", "OPTIONS"]

/-- Embedding of constructing an HttpRequest, including __post_init__: the
method is uppercased, then rejected (ValueError) unless it is in
valid_methods.  The error message of the source reads Método inválido
followed by the uppercased method. -/
def mkHttpRequest (method url : String) (headers : List (String × String))
    (body : Option String) (timeout : Int) : Except String HttpRequest :=
  let m := pyUpper method
  if valid_methods.contains m then
    Except.ok { method := m, url := url, headers := headers, body := body,
                timeout := timeout }
  else
    Except.error ("Metodo invalido: " ++ m)

/-- Embedding of the HttpResponse dataclass.  The elapsed_time (float seconds)
and timestamp (datetime) fields are omitted: no claim depends on them and
they have no exact counterpart in this embedding. -/
structure HttpResponse where
  status_code : Int
  headers : List (String × String)
  body : String
  request : HttpRequest
deriving Repr, DecidableEq

/-- is_success property: 200 <= status_code < 300. -/
def HttpResponse.is_success (r : HttpResponse) : Bool :=
  200 ≤ r.status_code && r.status_code < 300

/-- is_client_error property: 400 <= status_code < 500. -/
def HttpResponse.is_client_error (r : HttpResponse) : Bool :=
  400 ≤ r.status_code && r.status_code < 500

/-- is_server_error property: 500 <= status_code < 600. -/
def HttpResponse.is_server_error (r : HttpResponse) : Bool :=
  500 ≤ r.status_code && r.status_code < 600

/-! ### JSON values

Model of the Python json module as used by the formatter: json.loads on a
string, and json.dumps with indent=2 and ensure_ascii=False.  Numbers keep
their exact decimal reading: an integer literal becomes JsonNum.int, a literal
with a fraction or exponent becomes JsonNum.float m e denoting m * 10 ^ e
(Python would round this value to a binary double; the claims under
verification never depend on that rounding).  The constants NaN, Infinity and
-Infinity accepted by Python are also represented. -/

inductive JsonNum where
  | int (n : Int)
  | float (m : Int) (e : Int)
  | nan
  | inf
  | neginf
deriving Repr, DecidableEq

inductive Json where
  | null
  | bool (b : Bool)
  | num (n : JsonNum)
  | str (s : String)
  | arr (xs : List Json)
  | obj (kvs : List (String × Json))

/-- JSON whitespace as accepted by the Python json scanner. -/
def isJsonWs (c : Char) : Bool :=
  c == ' ' || c == '\t' || c == '\n' || c == '\r'

/-- Skip leading JSON whitespace. -/
def skipWs (cs : List Char) : List Char :=
  cs.dropWhile isJsonWs

/-- Value of one hexadecimal digit. -/
def hexVal (c : Char) : Option Nat :=
  if '0' ≤ c ∧ c ≤ '9' then some (c.toNat - '0'.toNat)
  else if 'a' ≤ c ∧ c ≤ 'f' then some (c.toNat - 'a'.toNat + 10)
  else if 'A' ≤ c ∧ c ≤ 'F' then some (c.toNat - 'A'.toNat + 10)
  else none

/-- Four hexadecimal digits, as in a JSON backslash-u escape. -/
def parseU4 : List Char → Option (Nat × List Char)
  | a :: b :: c :: d :: rest =>
    match hexVal a, hexVal b, hexVal c, hexVal d with
    | some x, some y, some z, some w => some (((x * 16 + y) * 16 + z) * 16 + w, rest)
    | _, _, _, _ => none
  | _ => none

/-- Body of a JSON string literal after the opening quote, in strict mode as
Python json.loads uses it: unescaped control characters are rejected, the
eight short escapes and backslash-u are recognised, and a surrogate pair of
backslash-u escapes is combined into one scalar value.  A lone surrogate
escape (accepted by Python, producing a string Lean cannot represent) is
rejected; no claim involves one. -/
def parseStrBody : Nat → List Char → List Char → Option (String × List Char)
  | 0, _, _ => none
  | _ + 1, _, [] => none
  | fuel + 1, acc, c :: rest =>
    if c == '"' then some (String.mk acc.reverse, rest)
    else if c == '\\' then
      match rest with
      | [] => none
      | e :: rest2 =>
        if e == '"' then parseStrBody fuel ('"' :: acc) rest2
        else if e == '\\' then parseStrBody fuel ('\\' :: acc) rest2
        else if e == '/' then parseStrBody fuel ('/' :: acc) rest2
        else if e == 'b' then parseStrBody fuel ('\x08' :: acc) rest2
        else if e == 'f' then parseStrBody fuel ('\x0c' :: acc) rest2
        else if e == 'n' then parseStrBody fuel ('\n' :: acc) rest2
        else if e == 'r' then parseStrBody fuel ('\r' :: acc) rest2
        else if e == 't' then parseStrBody fuel ('\t' :: acc) rest2
        else if e == 'u' then
          match parseU4 rest2 with
          | none => none
          | some (n, rest3) =>
            if 0xD800 ≤ n ∧ n < 0xDC00 then
              match rest3 with
              | '\\' :: 'u' :: rest4 =>
                match parseU4 rest4 with
                | some (n2, rest5) =>
                  if 0xDC00 ≤ n2 ∧ n2 < 0xE000 then
                    let cp := 0x10000 + (n - 0xD800) * 0x400 + (n2 - 0xDC00)
                    parseStrBody fuel (Char.ofNat cp :: acc) rest5
                  else none
                | none => none
              | _ => none
            else if 0xDC00 ≤ n ∧ n < 0xE000 then none
            else parseStrBody fuel (Char.ofNat n :: acc) rest3
        else none
    else if c.toNat < 0x20 then none
    else parseStrBody fuel (c :: acc) rest

/-- Numeric value of a list of decimal digits. -/
def digitsToNat (ds : List Char) : Nat :=
  ds.foldl (fun a c => a * 10 + (c.toNat - '0'.toNat)) 0

/-- Optional fraction part: a dot followed by at least one digit. -/
def parseFrac : List Char → Option (List Char × List Char)
  | '.' :: t =>
    let ds := t.takeWhile Char.isDigit
    if ds.isEmpty then none else some (ds, t.dropWhile Char.isDigit)
  | cs => some ([], cs)

/-- Optional exponent part: e or E, optional sign, at least one digit.
Returns none for the whole number when an exponent marker is present but
malformed, and some (none, cs) when no exponent marker is present. -/
def parseExp : List Char → Option (Option Int × List Char)
  | [] => some (none, [])
  | c :: t =>
    if c == 'e' || c == 'E' then
      let (sgn, t1) : Int × List Char :=
        match t with
        | '+' :: u => (1, u)
        | '-' :: u => (-1, u)
        | u => (1, u)
      let ds := t1.takeWhile Char.isDigit
      if ds.isEmpty then none
      else some (some (sgn * (digitsToNat ds : Int)), t1.dropWhile Char.isDigit)
    else some (none, c :: t)

/-- A JSON number literal following the grammar enforced by the Python json
NUMBER_RE: optional minus, integer part without leading zeros, optional
fraction, optional exponent.  No fraction and no exponent gives a Python int;
otherwise a float, kept as exact decimal mantissa and power of ten. -/
def parseNumber (cs : List Char) : Option (JsonNum × List Char) :=
  let (neg, cs1) : Bool × List Char :=
    match cs with
    | '-' :: t => (true, t)
    | t => (false, t)
  let intds := cs1.takeWhile Char.isDigit
  let rest1 := cs1.dropWhile Char.isDigit
  if intds.isEmpty then none
  else if intds.length > 1 ∧ intds.head? = some '0' then none
  else
    match parseFrac rest1 with
    | none => none
    | some (fracds, rest2) =>
      match parseExp rest2 with
      | none => none
      | some (expO, rest3) =>
        if fracds.isEmpty ∧ expO = none then
          let n : Int := digitsToNat intds
          some (.int (if neg then -n else n), rest3)
        else
          let mant : Int := digitsToNat (intds ++ fracds)
          let mant := if neg then -mant else mant
          let e : Int := expO.getD 0 - (fracds.length : Int)
          some (.float mant e, rest3)

/-- Python dict built from a list of key and value pairs by repeated
assignment: a duplicate key keeps its first position and takes its last
value. -/
def objFromPairs (ps : List (String × Json)) : List (String × Json) :=
  ps.foldl (fun d kv => dictInsertG d kv.1 kv.2) []

mutual

/-- Recursive-descent JSON value parser (model of the Python json scanner).
The fuel argument only bounds recursion depth; every three successive calls
consume at least one input character, so the ample fuel chosen in json_loads
is never exhausted on any input. -/
def parseValue : Nat → List Char → Option (Json × List Char)
  | 0, _ => none
  | fuel + 1, cs0 =>
    let cs := skipWs cs0
    match cs with
    | [] => none
    | c :: rest =>
      if c == '"' then
        match parseStrBody (rest.length + 1) [] rest with
        | some (s, r) => some (.str s, r)
        | none => none
      else if c == '\x7b' then parseObjStart fuel rest
      else if c == '[' then parseArrStart fuel rest
      else if charListStartsWith cs "null".toList then some (.null, cs.drop 4)
      else if charListStartsWith cs "true".toList then some (.bool true, cs.drop 4)
      else if charListStartsWith cs "false".toList then some (.bool false, cs.drop 5)
      else if charListStartsWith cs "NaN".toList then some (.num .nan, cs.drop 3)
      else if charListStartsWith cs "Infinity".toList then some (.num .inf, cs.drop 8)
      else if charListStartsWith cs "-Infinity".toList then some (.num .neginf, cs.drop 9)
      else
        match parseNumber cs with
        | some (n, r) => some (.num n, r)
        | none => none

/-- After an opening bracket: an empty array or the first item. -/
def parseArrStart : Nat → List Char → Option (Json × List Char)
  | 0, _ => none
  | fuel + 1, cs0 =>
    let cs := skipWs cs0
    match cs with
    | ']' :: rest => some (.arr [], rest)
    | _ => parseArrItems fuel [] cs

/-- Comma-separated array items up to the closing bracket. -/
def parseArrItems : Nat → List Json → List Char → Option (Json × List Char)
  | 0, _, _ => none
  | fuel + 1, acc, cs =>
    match parseValue fuel cs with
    | none => none
    | some (v, rest) =>
      match skipWs rest with
      | ',' :: rest2 => parseArrItems fuel (v :: acc) rest2
      | ']' :: rest2 => some (.arr (v :: acc).reverse, rest2)
      | _ => none

/-- After an opening brace: an empty object or the first member. -/
def parseObjStart : Nat → List Char → Option (Json × List Char)
  | 0, _ => none
  | fuel + 1, cs0 =>
    let cs := skipWs cs0
    match cs with
    | '\x7d' :: rest => some (.obj [], rest)
    | _ => parseObjItems fuel [] cs

/-- Comma-separated object members (string key, colon, value) up to the
closing brace; duplicate keys collapse as in a Python dict. -/
def parseObjItems : Nat → List (String × Json) → List Char → Option (Json × List Char)
  | 0, _, _ => none
  | fuel + 1, acc, cs0 =>
    match skipWs cs0 with
    | '"' :: rest =>
      match parseStrBody (rest.length + 1) [] rest with
      | none => none
      | some (k, rest1) =>
        match skipWs rest1 with
        | ':' :: rest2 =>
          match parseValue fuel rest2 with
          | none => none
          | some (v, rest3) =>
            match skipWs rest3 with
            | ',' :: rest4 => parseObjItems fuel ((k, v) :: acc) rest4
            | '\x7d' :: rest4 => some (.obj (objFromPairs ((k, v) :: acc).reverse), rest4)
            | _ => none
        | _ => none
    | _ => none

end

/-- Model of Python json.loads: parse one value, then require only whitespace
to the end of the input (otherwise Python raises Extra data and loads fails). -/
def json_loads (s : String) : Option Json :=
  match parseValue (3 * s.length + 8) s.toList with
  | some (v, rest) => if (skipWs rest).isEmpty then some v else none
  | none => none

/-! ### json.dumps with indent 2 and ensure_ascii False -/

/-- Lowercase hexadecimal digit. -/
def hexDigit (n : Nat) : Char :=
  if n < 10 then Char.ofNat ('0'.toNat + n) else Char.ofNat ('a'.toNat + n - 10)

/-- Escaping of one character inside a dumped JSON string, with
ensure_ascii=False: backslash, double quote and the control characters are
escaped, every other character (ASCII or not) is kept verbatim. -/
def escChar (c : Char) : List Char :=
  if c == '\\' then ['\\', '\\']
  else if c == '"' then ['\\', '"']
  else if c == '\x08' then ['\\', 'b']
  else if c == '\x0c' then ['\\', 'f']
  else if c == '\n' then ['\\', 'n']
  else if c == '\r' then ['\\', 'r']
  else if c == '\t' then ['\\', 't']
  else if c.toNat < 0x20 then ['\\', 'u', '0', '0', hexDigit (c.toNat / 16), hexDigit (c.toNat % 16)]
  else [c]

/-- A dumped JSON string literal with surrounding quotes. -/
def escString (s : String) : String :=
  "\"" ++ String.mk (s.toList.foldr (fun c acc => escChar c ++ acc) []) ++ "\""

/-- Strip trailing decimal zeros from a mantissa, moving them into the
exponent; the fuel bounds the iteration count. -/
def stripZerosAux : Nat → Int → Int → Int × Int
  | 0, m, e => (m, e)
  | fuel + 1, m, e =>
    if m ≠ 0 ∧ m % 10 = 0 then stripZerosAux fuel (m / 10) (e + 1) else (m, e)

/-- A run of zero characters. -/
def zeros (k : Nat) : String :=
  String.mk (List.replicate k '0')

/-- Simplified model of the Python float repr for a value written as
m * 10 ^ e: minimal plain decimal form.  Python switches to scientific
notation for very large or very small magnitudes and rounds to binary double
precision first; no claim depends on those cases. -/
def floatRepr (m0 e0 : Int) : String :=
  let p := stripZerosAux (m0.natAbs + 1) m0 e0
  let m := p.1
  let e := p.2
  if m = 0 then "0.0"
  else
    let sign := if m < 0 then "-" else ""
    let ds := toString m.natAbs
    if 0 ≤ e then sign ++ ds ++ zeros e.toNat ++ ".0"
    else
      let k := (-e).toNat
      if k < ds.length then
        sign ++ ds.take (ds.length - k) ++ "." ++ ds.drop (ds.length - k)
      else
        sign ++ "0." ++ zeros (k - ds.length) ++ ds

/-- Serialisation of a JSON number as Python json.dumps writes it. -/
def dumpNum : JsonNum → String
  | .int n => toString n
  | .float m e => floatRepr m e
  | .nan => "NaN"
  | .inf => "Infinity"
  | .neginf => "-Infinity"

/-- Indentation for nesting level lvl with indent=2: 2 * lvl spaces. -/
def indentStr (lvl : Nat) : String :=
  String.mk (List.replicate (2 * lvl) ' ')

mutual

/-- Model of Python json.dumps(v, indent=2, ensure_ascii=False) at nesting
level lvl: item separator a comma followed by a newline, key separator a
colon and a space, empty containers on one line. -/
def dumpJson (lvl : Nat) : Json → String
  | .null => "null"
  | .bool b => if b then "true" else "false"
  | .num n => dumpNum n
  | .str s => escString s
  | .arr [] => "[]"
  | .arr (x :: xs) =>
    "[\n" ++ dumpArrItems (lvl + 1) (x :: xs) ++ "\n" ++ indentStr lvl ++ "]"
  | .obj [] => "\x7b\x7d"
  | .obj (kv :: kvs) =>
    "\x7b\n" ++ dumpObjItems (lvl + 1) (kv :: kvs) ++ "\n" ++ indentStr lvl ++ "\x7d"

/-- Array items, one per line at the given level. -/
def dumpArrItems (lvl : Nat) : List Json → String
  | [] => ""
  | [x] => indentStr lvl ++ dumpJson lvl x
  | x :: y :: xs => indentStr lvl ++ dumpJson lvl x ++ ",\n" ++ dumpArrItems lvl (y :: xs)

/-- Object members, one per line at the given level. -/
def dumpObjItems (lvl : Nat) : List (String × Json) → String
  | [] => ""
  | [(k, v)] => indentStr lvl ++ escString k ++ ": " ++ dumpJson lvl v
  | (k, v) :: kv2 :: kvs =>
    indentStr lvl ++ escString k ++ ": " ++ dumpJson lvl v ++ ",\n" ++ dumpObjItems lvl (kv2 :: kvs)

end

/-- Model of json.dumps(parsed, indent=2, ensure_ascii=False) as called by the
formatter: dump at top level. -/
def json_dumps (v : Json) : String :=
  dumpJson 0 v

/-! ### Response formatter: display/formatters.py

Each console.print performed while rendering the body becomes one RenderItem:
a syntax-highlighted block (rich Syntax), a plain printed string, or a dimmed
footnote.  A footnote is an f-string with one interpolated number; the dim
constructor keeps that number as a separate field so the printed text is
pre ++ toString size ++ post. -/

inductive RenderItem where
  | highlighted (lang : String) (content : String)
  | text (s : String)
  | dim (pre : String) (size : Nat) (post : String)
deriving Repr, DecidableEq

/-- The printed text of one render item (the dim footnote interpolates its
number between its two literal fragments, as the f-string of the source
does). -/
def RenderItem.rendered : RenderItem → String
  | .highlighted _ content => content
  | .text s => s
  | .dim pre size post => pre ++ toString size ++ post

/-- The fields interpolated into the summary Panel of format_response: status
colour, status code, status phrase, and the figure printed as Size in bytes,
which the source computes as len(response.body).  The elapsed-time figure is
omitted (float formatting, no claim about it). -/
structure SummaryBlock where
  status_color : String
  status_code : Int
  status_text : String
  size_bytes : Nat
deriving Repr, DecidableEq

/-- The whole observable output of ResponseFormatter.format_response: the
summary panel, the header table (none when the block is not emitted, some
rows when it is), and the body render items. -/
structure RenderedResponse where
  summary : SummaryBlock
  headerRows : Option (List (String × String))
  bodyItems : List RenderItem
deriving Repr, DecidableEq

/-- Embedding of ResponseFormatter._get_status_color. -/
def get_status_color (status_code : Int) : String :=
  if 200 ≤ status_code ∧ status_code < 300 then "green"
  else if 300 ≤ status_code ∧ status_code < 400 then "yellow"
  else if 400 ≤ status_code ∧ status_code < 500 then "orange1"
  else if 500 ≤ status_code ∧ status_code < 600 then "red"
  else "white"

/-- The status_texts dict of ResponseFormatter._get_status_text. -/
def status_texts : List (Int × String) :=
  [(200, "OK"), (201, "Created"), (204, "No Content"),
   (301, "Moved Permanently"), (302, "Found"),
   (400, "Bad Request"), (401, "Unauthorized"), (403, "Forbidden"),
   (404, "Not Found"), (405, "Method Not Allowed"),
   (500, "Internal Server Error"), (502, "Bad Gateway"),
   (503, "Service Unavailable")]

/-- Embedding of ResponseFormatter._get_status_text:
status_texts.get(status_code, ""). -/
def get_status_text (status_code : Int) : String :=
  ((status_texts.find? (fun kv => kv.1 == status_code)).map (fun kv => kv.2)).getD ""

/-- The allow-list of header names displayed by format_response. -/
def important_headers : List String :=
  ["content-type", "content-length", "server",
   "date", "cache-control", "x-ratelimit-remaining"]

/-- The JSON branch of _format_body: try json.loads; on success print the
re-serialised text with syntax highlighting, on JSONDecodeError print the raw
body. -/
def format_body_json (r : HttpResponse) : List RenderItem :=
  match json_loads r.body with
  | some parsed => [.highlighted "json" (json_dumps parsed)]
  | none => [.text r.body]

/-- The HTML branch of _format_body: first 10 newline-separated lines, a
literal ... line appended when the truncated line list still has at least 10
entries, then always a dimmed footnote interpolating len(response.body). -/
def format_body_html (r : HttpResponse) : List RenderItem :=
  let lines := (pySplit r.body '\n').take 10
  let preview := joinWith "\n" lines
  let preview := if 10 ≤ lines.length then preview ++ "\n..." else preview
  [.highlighted "html" preview,
   .dim "[dim](HTML response truncated, " r.body.length " bytes total)[/dim]"]

/-- The XML branch of _format_body: first 500 characters highlighted, and a
dimmed footnote interpolating len(response.body) when the body is longer than
500 characters. -/
def format_body_xml (r : HttpResponse) : List RenderItem :=
  [.highlighted "xml" (pyTake r.body 500)] ++
    (if 500 < r.body.length then
      [.dim "[dim](XML truncated, " r.body.length " bytes total)[/dim]"]
    else [])

/-- The plain-text default branch of _format_body: bodies longer than 1000
characters are cut to the first 1000 characters with a dimmed footnote
interpolating len(response.body); otherwise the body is printed verbatim. -/
def format_body_plain (r : HttpResponse) : List RenderItem :=
  if 1000 < r.body.length then
    [.text (pyTake r.body 1000),
     .dim "[dim]... (" r.body.length " bytes total)[/dim]"]
  else
    [.text r.body]

/-- Embedding of ResponseFormatter._format_body: content_type is
response.headers.get("content-type", "") (exact-key dict lookup), then an
ordered chain of Python substring tests on that value selects the branch. -/
def format_body (r : HttpResponse) : List RenderItem :=
  let content_type := (dictGet r.headers "content-type").getD ""
  if strContainsSub content_type "application/json" then format_body_json r
  else if strContainsSub content_type "text/html" then format_body_html r
  else if strContainsSub content_type "application/xml" ||
          strContainsSub content_type "text/xml" then format_body_xml r
  else format_body_plain r

/-- Embedding of ResponseFormatter.format_response.  The summary panel always
shows the status colour, code, phrase and len(response.body) as the Size
figure.  The header table is emitted only when show_headers is true and the
header dict is non-empty; its rows are the header items, in order, whose
lowercased key is in important_headers.  The body items are _format_body. -/
def format_response (r : HttpResponse) (show_headers : Bool) : RenderedResponse :=
  { summary :=
      { status_color := get_status_color r.status_code,
        status_code := r.status_code,
        status_text := get_status_text r.status_code,
        size_bytes := r.body.length },
    headerRows :=
      if show_headers && !r.headers.isEmpty then
        some (r.headers.filter (fun kv => important_headers.contains (pyLower kv.1)))
      else none,
    bodyItems := format_body r }

/-! ### CLI header parsing: commands/request.py -/

/-- Model of Python header.split(":", 1) followed by str.strip on both parts,
for a string known to contain a colon: the key is everything before the first
colon, the value everything after it. -/
def split_strip (h : String) : String × String :=
  let cs := h.toList
  (pyStrip (String.mk (cs.takeWhile (fun c => c ≠ ':'))),
   pyStrip (String.mk ((cs.dropWhile (fun c => c ≠ ':')).drop 1)))

/-- The loop of _parse_headers with its accumulated dict: the first entry
without a colon aborts (click.Abort after print_error; the quotes of the
source error message are dropped here), otherwise the entry is split at its
first colon, stripped, and assigned into the dict. -/
def parse_headers_go : List String → List (String × String) →
    Except String (List (String × String))
  | [], acc => Except.ok acc
  | h :: rest, acc =>
    if h.toList.contains ':' then
      let kv := split_strip h
      parse_headers_go rest (dictInsertG acc kv.1 kv.2)
    else
      Except.error ("Header invalido: " ++ h ++ ". Formato esperado: Key: Value")

/-- Embedding of _parse_headers in commands/request.py. -/
def parse_headers (headers : List String) : Except String (List (String × String)) :=
  parse_headers_go headers []

/-- The content_type local variable of _format_body:
response.headers.get("content-type", ""). -/
def response_content_type (r : HttpResponse) : String :=
  (dictGet r.headers "content-type").getD ""

/-! ### Concrete values used by witnesses and counterexamples -/

/-- A well-formed request used as the back-reference of concrete responses. -/
def reqGET : HttpRequest :=
  { method := "GET", url := "https://api.example.com/users/5" }

/-- HTML response whose body is one non-ASCII character: one code point, two
UTF-8 bytes. -/
def rsp_html_accent : HttpResponse :=
  { status_code := 200, headers := [("content-type", "text/html")],
    body := "é", request := reqGET }

/-- HTML response with a short ASCII body. -/
def rsp_html_ascii : HttpResponse :=
  { status_code := 200, headers := [("content-type", "text/html")],
    body := "abc", request := reqGET }

/-- Response whose content-type value has upper-case letters and whose body is
valid JSON. -/
def rsp_upper_json : HttpResponse :=
  { status_code := 200, headers := [("content-type", "Application/JSON")],
    body := "[1]", request := reqGET }

/-- JSON response with a body holding compact valid JSON, including a
non-ASCII character. -/
def rsp_c3 : HttpResponse :=
  { status_code := 404, headers := [("content-type", "application/json")],
    body := "\x7b\"error\":\"not found\",\"k\":\"é\"\x7d", request := reqGET }

/-- The parsed value of the body of rsp_c3. -/
def v_c3 : Json :=
  Json.obj [("error", Json.str "not found"), ("k", Json.str "é")]

/-- Response claiming JSON content-type with a body that is not valid JSON. -/
def rsp_c4 : HttpResponse :=
  { status_code := 200, headers := [("content-type", "application/json")],
    body := "not json", request := reqGET }

/-- Response with a JSON content-type carrying a charset parameter. -/
def rsp_json_charset : HttpResponse :=
  { status_code := 200, headers := [("content-type", "application/json; charset=utf-8")],
    body := "[1]", request := reqGET }

/-- Response with a mix of allow-listed (in different letter cases) and other
headers. -/
def rsp_c5 : HttpResponse :=
  { status_code := 200,
    headers := [("Content-Type", "application/json"), ("X-Custom", "1"),
                ("SERVER", "srv")],
    body := "", request := reqGET }

/-- Plain-text response with a body of exactly 1000 characters and no
content-type header. -/
def rsp_c6_short : HttpResponse :=
  { status_code := 200, headers := [],
    body := String.mk (List.replicate 1000 'a'), request := reqGET }

/-- Plain-text response with a body of exactly 1001 characters and no
content-type header. -/
def rsp_c6_long : HttpResponse :=
  { status_code := 200, headers := [],
    body := String.mk (List.replicate 1001 'a'), request := reqGET }

/-- HTML response whose body has exactly 9 newline-separated lines. -/
def rsp_c7_nine : HttpResponse :=
  { status_code := 200, headers := [("content-type", "text/html")],
    body := "1\n2\n3\n4\n5\n6\n7\n8\n9", request := reqGET }

/-- HTML response whose body has exactly 10 newline-separated lines. -/
def rsp_c7_ten : HttpResponse :=
  { status_code := 200, headers := [("content-type", "text/html")],
    body := "1\n2\n3\n4\n5\n6\n7\n8\n9\n10", request := reqGET }

/-! ### Helper lemmas -/

theorem charUtf8Size_of_ascii {c : Char} (h : c.toNat < 0x80) : charUtf8Size c = 1 := by
  simp [charUtf8Size, h]

theorem foldl_utf8_of_ascii (l : List Char) (h : ∀ c ∈ l, c.toNat < 0x80) :
    ∀ a : Nat, l.foldl (fun a c => a + charUtf8Size c) a = a + l.length := by
  induction l with
  | nil => simp
  | cons c cs ih =>
    intro a
    have hc : charUtf8Size c = 1 := charUtf8Size_of_ascii (h c (by simp))
    rw [List.foldl_cons, hc, ih (fun d hd => h d (by simp [hd])) (a + 1),
      List.length_cons]
    omega

theorem utf8Length_of_allAscii {s : String} (h : allAscii s = true) :
    utf8Length s = s.length := by
  have h' : ∀ c ∈ s.toList, c.toNat < 0x80 := by
    simpa [allAscii, List.all_eq_true] using h
  unfold utf8Length
  rw [foldl_utf8_of_ascii s.toList h' 0, Nat.zero_add]
  rfl

theorem option_map_or {α β : Type} (f : α → β) (a b : Option α) :
    (a.or b).map f = (a.map f).or (b.map f) := by
  cases a <;> rfl

theorem getLast?_filter_cons {α : Type} (p : α → Bool) (x : α) (l : List α) :
    ((x :: l).filter p).getLast? =
      ((l.filter p).getLast?).or (if p x then some x else none) := by
  by_cases hx : p x
  · rw [List.filter_cons_of_pos hx, if_pos hx]
    cases h : (l.filter p).getLast? <;> simp [List.getLast?_cons, h]
  · rw [List.filter_cons_of_neg (by simpa using hx), if_neg hx]
    cases (l.filter p).getLast? <;> rfl

theorem find_map_replace_self {α : Type} (k : String) (v : α) (d : List (String × α))
    (h : d.any (fun kv => kv.1 == k) = true) :
    (d.map (fun kv => if kv.1 == k then (k, v) else kv)).find? (fun kv => kv.1 == k)
      = some (k, v) := by
  induction d with
  | nil => simp at h
  | cons kv0 rest ih =>
    by_cases h0 : kv0.1 = k
    · rw [List.map_cons, if_pos (by simpa using h0)]
      exact List.find?_cons_of_pos _ (by simp)
    · rw [List.map_cons, if_neg (by simpa using h0)]
      rw [List.find?_cons_of_neg _ (by simpa using h0)]
      refine ih ?_
      simpa [List.any_cons, (by simpa using h0 : (kv0.1 == k) = false)] using h

theorem find_map_replace_other {α : Type} (k k' : String) (v : α)
    (hne : k' ≠ k) (d : List (String × α)) :
    (d.map (fun kv => if kv.1 == k then (k, v) else kv)).find? (fun kv => kv.1 == k')
      = d.find? (fun kv => kv.1 == k') := by
  induction d with
  | nil => rfl
  | cons kv0 rest ih =>
    by_cases h0 : kv0.1 = k
    · rw [List.map_cons, if_pos (by simpa using h0)]
      rw [List.find?_cons_of_neg _ (by simpa using Ne.symm hne)]
      rw [List.find?_cons_of_neg _ (by simp [h0, Ne.symm hne])]
      exact ih
    · rw [List.map_cons, if_neg (by simpa using h0)]
      by_cases h1 : kv0.1 = k'
      · rw [List.find?_cons_of_pos _ (by simpa using h1),
          List.find?_cons_of_pos _ (by simpa using h1)]
      · rw [List.find?_cons_of_neg _ (by simpa using h1),
          List.find?_cons_of_neg _ (by simpa using h1)]
        exact ih

theorem lookupVal_dictInsertG {α : Type} (d : List (String × α)) (k k' : String) (v : α) :
    lookupVal (dictInsertG d k v) k' =
      if k' = k then some v else lookupVal d k' := by
  unfold dictInsertG
  by_cases hany : d.any (fun kv => kv.1 == k) = true
  · rw [if_pos hany]
    by_cases hk : k' = k
    · subst hk
      rw [if_pos rfl]
      unfold lookupVal
      rw [find_map_replace_self k' v d hany]
      rfl
    · rw [if_neg hk]
      unfold lookupVal
      rw [find_map_replace_other k k' v hk d]
  · rw [if_neg hany]
    have hnone : d.find? (fun kv => kv.1 == k) = none := by
      rw [List.find?_eq_none]
      intro x hx
      intro hxk
      exact hany (List.any_eq_true.mpr ⟨x, hx, hxk⟩)
    by_cases hk : k' = k
    · subst hk
      rw [if_pos rfl]
      unfold lookupVal
      rw [List.find?_append, hnone, Option.none_or,
        List.find?_cons_of_pos _ (by simp)]
      rfl
    · rw [if_neg hk]
      unfold lookupVal
      have htail : (((k, v) :: []).find? (fun kv => kv.1 == k')) = none := by
        rw [List.find?_cons_of_neg _ (by simpa using Ne.symm hk)]
        rfl
      rw [List.find?_append, htail]
      cases d.find? (fun kv => kv.1 == k') <;> rfl

theorem parse_headers_go_ok_iff (hs : List String) :
    ∀ acc, (∃ d, parse_headers_go hs acc = Except.ok d) ↔
      ∀ h ∈ hs, h.toList.contains ':' = true := by
  induction hs with
  | nil =>
    intro acc
    constructor
    · intro _ h hmem
      exact absurd hmem (List.not_mem_nil h)
    · intro _
      exact ⟨acc, rfl⟩
  | cons h t ih =>
    intro acc
    by_cases hc : h.toList.contains ':' = true
    · have hcm : ':' ∈ h.data := by simpa using hc
      have hstep : parse_headers_go (h :: t) acc =
          parse_headers_go t (dictInsertG acc (split_strip h).1 (split_strip h).2) := by
        simp [parse_headers_go, hcm]
      constructor
      · intro hex h0 hmem
        rcases List.mem_cons.mp hmem with rfl | hmem'
        · exact hc
        · rw [hstep] at hex
          exact (ih _).mp hex h0 hmem'
      · intro hall
        rw [hstep]
        exact (ih _).mpr (fun h0 hmem => hall h0 (List.mem_cons_of_mem h hmem))
    · have hcm : ':' ∉ h.data := by simpa using hc
      constructor
      · intro hex
        exfalso
        rcases hex with ⟨d, hd⟩
        simp [parse_headers_go, hcm] at hd
      · intro hall
        exact absurd (hall h (List.mem_cons_self h t)) hc

theorem parse_headers_go_lookup (hs : List String) :
    ∀ acc d, parse_headers_go hs acc = Except.ok d → ∀ k,
      lookupVal d k =
        ((((hs.map split_strip).filter (fun kv => kv.1 == k)).getLast?).map
          (fun kv => kv.2)).or (lookupVal acc k) := by
  induction hs with
  | nil =>
    intro acc d hd k
    have : acc = d := by simpa [parse_headers_go] using hd
    subst this
    rfl
  | cons h t ih =>
    intro acc d hd k
    by_cases hc : h.toList.contains ':' = true
    · have hcm : ':' ∈ h.data := by simpa using hc
      have hstep : parse_headers_go (h :: t) acc =
          parse_headers_go t (dictInsertG acc (split_strip h).1 (split_strip h).2) := by
        simp [parse_headers_go, hcm]
      rw [hstep] at hd
      rw [ih _ d hd k, lookupVal_dictInsertG, List.map_cons, getLast?_filter_cons,
        option_map_or, Option.or_assoc]
      congr 1
      by_cases hk : k = (split_strip h).1
      · have hb : ((split_strip h).1 == k) = true := by
          rw [hk]
          exact beq_self_eq_true _
        rw [if_pos hk, if_pos hb]
        rfl
      · have hb : ¬ ((split_strip h).1 == k) = true := by
          simp only [beq_iff_eq]
          exact fun he => hk he.symm
        rw [if_neg hk, if_neg hb]
        rfl
    · exfalso
      have hcm : ':' ∉ h.data := by simpa using hc
      simp [parse_headers_go, hcm] at hd

theorem dim_mem_format_body (r : HttpResponse) :
    ∀ p n q, RenderItem.dim p n q ∈ format_body r → n = r.body.length := by
  intro p n q h
  simp only [format_body] at h
  split_ifs at h with h1 h2 h3
  · unfold format_body_json at h
    cases hj : json_loads r.body <;> rw [hj] at h <;> simp at h
  · simp [format_body_html] at h
    exact h.2.1
  · unfold format_body_xml at h
    split_ifs at h with h4 <;> simp at h
    exact h.2.1
  · unfold format_body_plain at h
    split_ifs at h with h4 <;> simp at h
    exact h.2.1

theorem format_body_eq_json (r : HttpResponse)
    (h1 : strContainsSub (response_content_type r) "application/json" = true) :
    format_body r = format_body_json r := by
  simp only [response_content_type] at h1
  simp [format_body, h1]

theorem format_body_eq_html (r : HttpResponse)
    (h1 : strContainsSub (response_content_type r) "application/json" = false)
    (h2 : strContainsSub (response_content_type r) "text/html" = true) :
    format_body r = format_body_html r := by
  simp only [response_content_type] at h1 h2
  simp [format_body, h1, h2]

theorem format_body_eq_xml (r : HttpResponse)
    (h1 : strContainsSub (response_content_type r) "application/json" = false)
    (h2 : strContainsSub (response_content_type r) "text/html" = false)
    (hx : strContainsSub (response_content_type r) "application/xml" = true ∨
      strContainsSub (response_content_type r) "text/xml" = true) :
    format_body r = format_body_xml r := by
  simp only [response_content_type] at h1 h2 hx
  rcases hx with hx | hx <;> simp [format_body, h1, h2, hx]

theorem format_body_eq_plain (r : HttpResponse)
    (h1 : strContainsSub (response_content_type r) "application/json" = false)
    (h2 : strContainsSub (response_content_type r) "text/html" = false)
    (h3 : strContainsSub (response_content_type r) "application/xml" = false)
    (h4 : strContainsSub (response_content_type r) "text/xml" = false) :
    format_body r = format_body_plain r := by
  simp only [response_content_type] at h1 h2 h3 h4
  simp [format_body, h1, h2, h3, h4]

/-! ### Claims -/

/-- C2 counterexample: a content-type value of Application/JSON does not
select the JSON branch.  With a valid JSON body the rendered output is the
raw body printed by the plain-text default branch, not the highlighted
re-serialised JSON that the JSON branch would produce. -/
theorem c2_counterexample :
    format_body rsp_upper_json = [RenderItem.text "[1]"]
    ∧ format_body_json rsp_upper_json = [RenderItem.highlighted "json" "[\n  1\n]"]
    ∧ format_body rsp_upper_json ≠ format_body_json rsp_upper_json := by
  refine ⟨by decide, by decide, by decide⟩

/-- C2 (amended): the body-rendering branch is selected by a case-sensitive
Python substring test on the value of the content-type header (exact-key
lookup, missing header treated as the empty string), with first-match-wins
order JSON, HTML, XML, plain-text default. -/
theorem c2_dispatch_order (r : HttpResponse) :
    (strContainsSub (response_content_type r) "application/json" = true →
      format_body r = format_body_json r)
    ∧ (strContainsSub (response_content_type r) "application/json" = false →
       strContainsSub (response_content_type r) "text/html" = true →
      format_body r = format_body_html r)
    ∧ (strContainsSub (response_content_type r) "application/json" = false →
       strContainsSub (response_content_type r) "text/html" = false →
       (strContainsSub (response_content_type r) "application/xml" = true ∨
        strContainsSub (response_content_type r) "text/xml" = true) →
      format_body r = format_body_xml r)
    ∧ (strContainsSub (response_content_type r) "application/json" = false →
       strContainsSub (response_content_type r) "text/html" = false →
       strContainsSub (response_content_type r) "application/xml" = false →
       strContainsSub (response_content_type r) "text/xml" = false →
      format_body r = format_body_plain r) := by
  exact ⟨format_body_eq_json r, format_body_eq_html r, format_body_eq_xml r,
    format_body_eq_plain r⟩

/-- C2 witness: a content-type of application/json with a charset parameter
selects the JSON branch. -/
theorem c2_witness : format_body rsp_json_charset = format_body_json rsp_json_charset :=
  (c2_dispatch_order rsp_json_charset).1 (by decide)

/-- C3: when the content-type value contains application/json and the body
parses as JSON, the rendered body block is exactly the re-serialised JSON
(2-space indentation, non-ASCII unescaped) with syntax highlighting. -/
theorem c3_json_pretty (r : HttpResponse) (v : Json)
    (h1 : strContainsSub (response_content_type r) "application/json" = true)
    (h2 : json_loads r.body = some v) :
    format_body r = [RenderItem.highlighted "json" (json_dumps v)] := by
  simp only [response_content_type] at h1
  simp [format_body, h1, format_body_json, h2]

/-- C3 witness: the compact body of rsp_c3 is rendered in the re-indented
form, with the non-ASCII character left unescaped, and that form differs from
the original compact text. -/
theorem c3_witness :
    format_body rsp_c3 =
      [RenderItem.highlighted "json"
        "\x7b\n  \"error\": \"not found\",\n  \"k\": \"é\"\n\x7d"]
    ∧ json_dumps v_c3 ≠ rsp_c3.body := by
  have h := c3_json_pretty rsp_c3 v_c3 (by decide) (by rfl)
  exact ⟨by rw [h]; decide, by decide⟩

/-- C4: when the content-type value contains application/json but the body is
not valid JSON, rendering falls back to printing the raw body unchanged. -/
theorem c4_json_fallback (r : HttpResponse)
    (h1 : strContainsSub (response_content_type r) "application/json" = true)
    (h2 : json_loads r.body = none) :
    format_body r = [RenderItem.text r.body] := by
  simp only [response_content_type] at h1
  simp [format_body, h1, format_body_json, h2]

/-- C4 witness: a non-JSON body under a JSON content-type is printed raw. -/
theorem c4_witness : format_body rsp_c4 = [RenderItem.text "not json"] := by
  have h := c4_json_fallback rsp_c4 (by decide) (by rfl)
  exact h

/-- C1 counterexample: for a one-character non-ASCII HTML body the summary
Size figure and the truncation footnote figure are 1 (the character count of
the body as computed by len(response.body)) while the UTF-8 encoded byte
length of the body is 2. -/
theorem c1_counterexample :
    (format_response rsp_html_accent true).summary.size_bytes ≠
      utf8Length rsp_html_accent.body
    ∧ RenderItem.dim "[dim](HTML response truncated, " 1 " bytes total)[/dim]" ∈
        (format_response rsp_html_accent true).bodyItems
    ∧ (1 : Nat) ≠ utf8Length rsp_html_accent.body := by
  refine ⟨by decide, by decide, by decide⟩

/-- C1 (amended): the Size figure of the summary block and the figure of
every truncation footnote equal the character count (number of code points)
of the original untruncated body; this agrees with the UTF-8 encoded byte
length only when the body is entirely ASCII. -/
theorem c1_size_figures (r : HttpResponse) (sh : Bool) :
    (format_response r sh).summary.size_bytes = r.body.length
    ∧ (∀ p n q, RenderItem.dim p n q ∈ (format_response r sh).bodyItems →
        n = r.body.length)
    ∧ (allAscii r.body = true →
        (format_response r sh).summary.size_bytes = utf8Length r.body) := by
  refine ⟨rfl, ?_, ?_⟩
  · intro p n q h
    exact dim_mem_format_body r p n q h
  · intro h
    show r.body.length = utf8Length r.body
    exact (utf8Length_of_allAscii h).symm

/-- C1 witness: on a 3-character ASCII HTML body the summary figure, the
footnote figure and the UTF-8 byte length all agree. -/
theorem c1_witness :
    (format_response rsp_html_ascii true).summary.size_bytes = rsp_html_ascii.body.length
    ∧ (3 : Nat) = rsp_html_ascii.body.length
    ∧ (format_response rsp_html_ascii true).summary.size_bytes =
        utf8Length rsp_html_ascii.body := by
  refine ⟨(c1_size_figures rsp_html_ascii true).1, ?_, ?_⟩
  · exact (c1_size_figures rsp_html_ascii true).2.1
      "[dim](HTML response truncated, " 3 " bytes total)[/dim]" (by decide)
  · exact (c1_size_figures rsp_html_ascii true).2.2 (by decide)

/-- C5: with showHeaders true the header block holds exactly the response
header entries whose lowercased key is on the six-entry allow-list, in the
original insertion order (the rows are the filter of the header list, hence a
sublist of it), and an entry appears in the block if and only if it is a
response header with an allow-listed key. -/
theorem c5_header_allowlist (r : HttpResponse) :
    ((format_response r true).headerRows.getD []) =
      r.headers.filter (fun kv => important_headers.contains (pyLower kv.1))
    ∧ ((format_response r true).headerRows.getD []).Sublist r.headers
    ∧ ∀ kv, kv ∈ ((format_response r true).headerRows.getD []) ↔
        (kv ∈ r.headers ∧ important_headers.contains (pyLower kv.1) = true) := by
  have hrows : ((format_response r true).headerRows.getD []) =
      r.headers.filter (fun kv => important_headers.contains (pyLower kv.1)) := by
    by_cases h : r.headers.isEmpty = true
    · have hnil : r.headers = [] := by simpa [List.isEmpty_iff] using h
      simp [format_response, h, hnil]
    · simp [format_response, h]
  refine ⟨hrows, ?_, ?_⟩
  · rw [hrows]
    exact List.filter_sublist _
  · intro kv
    rw [hrows]
    simp [List.mem_filter]

/-- C5 witness: of three headers in mixed letter case, the two allow-listed
ones survive in order and the unknown one is dropped. -/
theorem c5_witness :
    ((format_response rsp_c5 true).headerRows.getD []) =
      [("Content-Type", "application/json"), ("SERVER", "srv")] := by
  rw [(c5_header_allowlist rsp_c5).1]
  decide

/-- C6: under the plain-text default branch, a body of at most 1000
characters is printed verbatim with no footnote, and a body of 1001 or more
characters is cut to its first 1000 characters followed by a footnote whose
figure is the length of the full body. -/
theorem c6_plain_truncation (r : HttpResponse)
    (h1 : strContainsSub (response_content_type r) "application/json" = false)
    (h2 : strContainsSub (response_content_type r) "text/html" = false)
    (h3 : strContainsSub (response_content_type r) "application/xml" = false)
    (h4 : strContainsSub (response_content_type r) "text/xml" = false) :
    (r.body.length ≤ 1000 → format_body r = [RenderItem.text r.body])
    ∧ (1000 < r.body.length →
        format_body r = [RenderItem.text (pyTake r.body 1000),
          RenderItem.dim "[dim]... (" r.body.length " bytes total)[/dim]"]) := by
  have hb : format_body r = format_body_plain r :=
    format_body_eq_plain r h1 h2 h3 h4
  constructor
  · intro hlen
    rw [hb]
    unfold format_body_plain
    rw [if_neg (by omega)]
  · intro hlen
    rw [hb]
    unfold format_body_plain
    rw [if_pos hlen]

set_option maxRecDepth 20000 in
/-- C6 witness: a 1000-character body is printed whole with no footnote; a
1001-character body is cut to 1000 characters with a footnote figure of
1001. -/
theorem c6_witness :
    format_body rsp_c6_short = [RenderItem.text rsp_c6_short.body]
    ∧ format_body rsp_c6_long = [RenderItem.text (pyTake rsp_c6_long.body 1000),
        RenderItem.dim "[dim]... (" rsp_c6_long.body.length " bytes total)[/dim]"] := by
  refine ⟨?_, ?_⟩
  · exact (c6_plain_truncation rsp_c6_short (by decide) (by decide) (by decide)
      (by decide)).1 (by decide)
  · exact (c6_plain_truncation rsp_c6_long (by decide) (by decide) (by decide)
      (by decide)).2 (by decide)

/-- C7: under the HTML branch the highlighted block holds the first
min(10, n) newline-separated lines of the body, with a literal ... line
appended exactly when the body has 10 or more lines, and a footnote whose
figure is the length of the full untruncated body is always appended. -/
theorem c7_html_truncation (r : HttpResponse)
    (h1 : strContainsSub (response_content_type r) "application/json" = false)
    (h2 : strContainsSub (response_content_type r) "text/html" = true) :
    format_body r = [RenderItem.highlighted "html"
        (if 10 ≤ (pySplit r.body '\n').length then
          joinWith "\n" ((pySplit r.body '\n').take 10) ++ "\n..."
        else joinWith "\n" ((pySplit r.body '\n').take 10)),
      RenderItem.dim "[dim](HTML response truncated, " r.body.length
        " bytes total)[/dim]"]
    ∧ ((pySplit r.body '\n').take 10).length = min 10 (pySplit r.body '\n').length := by
  have hb : format_body r = format_body_html r := format_body_eq_html r h1 h2
  have hlen : ((pySplit r.body '\n').take 10).length =
      min 10 (pySplit r.body '\n').length := List.length_take ..
  refine ⟨?_, hlen⟩
  rw [hb]
  simp only [format_body_html]
  rw [hlen]
  by_cases hc : 10 ≤ (pySplit r.body '\n').length
  · rw [if_pos (show 10 ≤ min 10 (pySplit r.body '\n').length by omega), if_pos hc]
  · rw [if_neg (show ¬ 10 ≤ min 10 (pySplit r.body '\n').length by omega), if_neg hc]

/-- C7 witness: a 9-line HTML body is shown whole with no ellipsis line and a
footnote figure of 17; a 10-line HTML body gains the ellipsis line and a
footnote figure of 20. -/
theorem c7_witness :
    format_body rsp_c7_nine = [RenderItem.highlighted "html" "1\n2\n3\n4\n5\n6\n7\n8\n9",
      RenderItem.dim "[dim](HTML response truncated, " 17 " bytes total)[/dim]"]
    ∧ format_body rsp_c7_ten =
      [RenderItem.highlighted "html" "1\n2\n3\n4\n5\n6\n7\n8\n9\n10\n...",
       RenderItem.dim "[dim](HTML response truncated, " 20 " bytes total)[/dim]"] := by
  have h9 := (c7_html_truncation rsp_c7_nine (by decide) (by decide)).1
  have h10 := (c7_html_truncation rsp_c7_ten (by decide) (by decide)).1
  exact ⟨by rw [h9]; decide, by rw [h10]; decide⟩

/-- C8: the status-phrase lookup is a total function: it returns the fixed
phrase on each of the thirteen curated codes and the empty string on every
other integer, in particular on 422 and 429. -/
theorem c8_status_text_total :
    (∀ c : Int,
      c ∉ ([200, 201, 204, 301, 302, 400, 401, 403, 404, 405, 500, 502, 503] : List Int) →
      get_status_text c = "")
    ∧ get_status_text 200 = "OK" ∧ get_status_text 201 = "Created"
    ∧ get_status_text 204 = "No Content" ∧ get_status_text 301 = "Moved Permanently"
    ∧ get_status_text 302 = "Found" ∧ get_status_text 400 = "Bad Request"
    ∧ get_status_text 401 = "Unauthorized" ∧ get_status_text 403 = "Forbidden"
    ∧ get_status_text 404 = "Not Found" ∧ get_status_text 405 = "Method Not Allowed"
    ∧ get_status_text 500 = "Internal Server Error" ∧ get_status_text 502 = "Bad Gateway"
    ∧ get_status_text 503 = "Service Unavailable"
    ∧ get_status_text 422 = "" ∧ get_status_text 429 = "" := by
  refine ⟨?_, by decide, by decide, by decide, by decide, by decide, by decide,
    by decide, by decide, by decide, by decide, by decide, by decide, by decide,
    by decide, by decide⟩
  intro c hc
  simp only [List.mem_cons, List.not_mem_nil, or_false] at hc
  push_neg at hc
  obtain ⟨h1, h2, h3, h4, h5, h6, h7, h8, h9, h10, h11, h12, h13⟩ := hc
  have hnone : status_texts.find? (fun kv => kv.1 == c) = none := by
    rw [List.find?_eq_none]
    intro kv hkv
    simp only [status_texts, List.mem_cons, List.not_mem_nil, or_false] at hkv
    rcases hkv with rfl | rfl | rfl | rfl | rfl | rfl | rfl | rfl | rfl | rfl | rfl | rfl | rfl <;>
      simp <;> omega
  simp [get_status_text, hnone]

/-- C8 witness: the quantified part applied at the common code 422. -/
theorem c8_witness : get_status_text 422 = "" :=
  c8_status_text_total.1 422 (by decide)

/-- C9: constructing an HttpRequest uppercases the method first and fails
exactly when the uppercased value is not one of the seven valid methods; on
success the stored method field is the uppercased value. -/
theorem c9_method_validation (m url : String) (hs : List (String × String))
    (b : Option String) (t : Int) :
    ((∃ e, mkHttpRequest m url hs b t = Except.error e) ↔
      valid_methods.contains (pyUpper m) = false)
    ∧ ∀ req, mkHttpRequest m url hs b t = Except.ok req → req.method = pyUpper m := by
  by_cases h : valid_methods.contains (pyUpper m) = true
  · have hm : pyUpper m ∈ valid_methods := by simpa using h
    have hb : mkHttpRequest m url hs b t =
        Except.ok { method := pyUpper m, url := url, headers := hs, body := b,
                    timeout := t } := by
      simp [mkHttpRequest, hm]
    constructor
    · rw [hb]
      constructor
      · rintro ⟨e, he⟩
        exact absurd he (by simp)
      · intro hf
        rw [h] at hf
        exact absurd hf (by simp)
    · intro req hreq
      rw [hb] at hreq
      have := Except.ok.inj hreq
      rw [← this]
  · have hf : valid_methods.contains (pyUpper m) = false := by
      simpa using h
    have hm : pyUpper m ∉ valid_methods := by simpa using h
    have hb : mkHttpRequest m url hs b t =
        Except.error ("Metodo invalido: " ++ pyUpper m) := by
      simp [mkHttpRequest, hm]
    constructor
    · rw [hb]
      exact iff_of_true ⟨_, rfl⟩ hf
    · intro req hreq
      rw [hb] at hreq
      exact absurd hreq (by simp)

/-- C9 witness: the method string get is accepted after uppercasing and the
stored method field is GET. -/
theorem c9_witness :
    (mkHttpRequest "get" "u" [] none 30 =
      Except.ok { method := "GET", url := "u", headers := [], body := none,
                  timeout := 30 })
    ∧ ({ method := "GET", url := "u", headers := [], body := none,
         timeout := 30 } : HttpRequest).method = pyUpper "get" := by
  have h := (c9_method_validation "get" "u" [] none 30).2
  have hok : mkHttpRequest "get" "u" [] none 30 =
      Except.ok { method := "GET", url := "u", headers := [], body := none,
                  timeout := 30 } := by rfl
  exact ⟨hok, h _ hok⟩

/-- C10: CLI header parsing aborts exactly when some entry has no colon;
on success each entry was split at its first colon with both parts stripped,
and the value stored under a key is the stripped value of the last entry
whose stripped key equals it (later entries overwrite earlier ones). -/
theorem c10_header_parsing (hs : List String) :
    ((∃ e, parse_headers hs = Except.error e) ↔
      ∃ h ∈ hs, h.toList.contains ':' = false)
    ∧ ∀ d, parse_headers hs = Except.ok d → ∀ k,
        lookupVal d k =
          (((hs.map split_strip).filter (fun kv => kv.1 == k)).getLast?).map
            (fun kv => kv.2) := by
  constructor
  · cases hp : parse_headers hs with
    | ok d =>
      have hall : ∀ h ∈ hs, h.toList.contains ':' = true :=
        (parse_headers_go_ok_iff hs []).mp ⟨d, hp⟩
      constructor
      · rintro ⟨e, he⟩
        exact absurd he (by simp)
      · rintro ⟨h0, hmem, hfalse⟩
        rw [hall h0 hmem] at hfalse
        exact absurd hfalse (by simp)
    | error e =>
      constructor
      · intro _
        by_contra hno
        push_neg at hno
        have hall : ∀ h ∈ hs, h.toList.contains ':' = true := by
          intro h0 hm
          have hne := hno h0 hm
          cases hb : h0.toList.contains ':' with
          | true => rfl
          | false => exact absurd hb hne
        rcases (parse_headers_go_ok_iff hs []).mpr hall with ⟨d, hd⟩
        have hd' : parse_headers hs = Except.ok d := hd
        rw [hp] at hd'
        exact absurd hd' (by simp)
      · intro _
        exact ⟨e, rfl⟩
  · intro d hd k
    have hg := parse_headers_go_lookup hs [] d hd k
    rw [hg]
    cases (((hs.map split_strip).filter (fun kv => kv.1 == k)).getLast?).map
      (fun kv => kv.2) <;> rfl

/-- C10 witness: two entries with the key Content-Type leave the later value
in the mapping at the position of the first, and an entry without a colon
aborts the parse. -/
theorem c10_witness :
    lookupVal [("Content-Type", "text/html"), ("X", "1")] "Content-Type" =
      some "text/html"
    ∧ ∃ e, parse_headers ["NoColon"] = Except.error e := by
  constructor
  · have h := (c10_header_parsing
      ["Content-Type: application/json", "X: 1", "Content-Type: text/html"]).2
      [("Content-Type", "text/html"), ("X", "1")] (by rfl) "Content-Type"
    rw [h]
    decide
  · exact (c10_header_parsing ["NoColon"]).1.mpr ⟨"NoColon", by decide, by decide⟩
